import Mathlib

/-!
Verification development for the RT-Thread rtconfig migration tool
(`hotfix/convert-rtconfig.py`).  The analyzer, flag classifier, generator
and the main pipeline are embedded shallowly over `List Char` strings;
Python's `re` scans are rendered as explicit leftmost, non-overlapping
scanning functions specialised to the exact patterns of the source.
-/

namespace RTConfig

/-- Python `\s` on the ASCII range (space, tab, newline, carriage return,
vertical tab, form feed). -/
def pyIsSpace (c : Char) : Bool :=
  c = ' ' || c = '\t' || c = '\n' || c = '\r' || c = '\x0b' || c = '\x0c'

/-- Python `\w` on the ASCII range: letters, digits and underscore. -/
def pyIsWord (c : Char) : Bool := c.isAlphanum || c = '_'

/-- `RTConfigAnalyzer.unsupported_gcc_keywords` (convert-rtconfig.py,
lines 33-51), in source order. -/
def unsupported_gcc_keywords : List (List Char) :=
  [("--apcs=interwork").toList,
   ("-D__MICROLIB").toList,
   ("--pd \"__MICROLIB SETA 1\"").toList,
   ("--library_type=microlib").toList,
   ("--cpu Cortex-M4.fp").toList,
   ("--diag_suppress Pa050").toList,
   ("-Dewarm").toList,
   ("--no_cse").toList,
   ("--no_unroll").toList,
   ("--no_inline").toList,
   ("--no_code_motion").toList,
   ("--no_tbaa").toList,
   ("--no_clustering").toList,
   ("--no_scheduling").toList,
   ("--target=arm-arm-none-eabi").toList,
   ("--list rt-thread.map").toList,
   ("--strict").toList]

/-- The flag classifier: the inner keyword loop of
`_analyze_compiler_flags_fixed` (lines 245-252).  Python's
`keyword in flag_value` is substring containment; the loop returns the
first keyword of the table that is a substring of the value. -/
def isUnsupported (v : List Char) : Option (List Char) :=
  unsupported_gcc_keywords.find? (fun k => decide (k <:+: v))

/-- Leftmost, non-overlapping matches of `-D([\w_][\w\d_]*)`
(`_extract_defines_and_includes_fixed`, line 260): after a literal `-D`,
a maximal non-empty run of word characters is captured; on a failed
match the scan advances by one character. -/
def defineScanAux : Nat → List Char → List (List Char)
  | 0, _ => []
  | _ + 1, [] => []
  | fuel + 1, '-' :: 'D' :: r =>
      if (r.takeWhile pyIsWord) = [] then defineScanAux fuel ('D' :: r)
      else (r.takeWhile pyIsWord) :: defineScanAux fuel (r.dropWhile pyIsWord)
  | fuel + 1, _ :: rest => defineScanAux fuel rest

/-- `re.findall(r'-D([\w_][\w\d_]*)', content)`; the fuel `length + 1`
is sufficient because every step consumes at least one character. -/
def defineScan (content : List Char) : List (List Char) :=
  defineScanAux (content.length + 1) content

/-- Character class `[^\s'"]` of the include pattern. -/
def isIncChar (c : Char) : Bool := !(pyIsSpace c) && c ≠ '\'' && c ≠ '"'

/-- Leftmost, non-overlapping matches of `-I([^\s'"]+)` (line 261). -/
def includeScanAux : Nat → List Char → List (List Char)
  | 0, _ => []
  | _ + 1, [] => []
  | fuel + 1, '-' :: 'I' :: r =>
      if (r.takeWhile isIncChar) = [] then includeScanAux fuel ('I' :: r)
      else (r.takeWhile isIncChar) :: includeScanAux fuel (r.dropWhile isIncChar)
  | fuel + 1, _ :: rest => includeScanAux fuel rest

/-- `re.findall(r'-I([^\s\'"]+)', content)`; the fuel `length + 1`
is sufficient because every step consumes at least one character. -/
def includeScan (content : List Char) : List (List Char) :=
  includeScanAux (content.length + 1) content

/-- Python `set.add` on a set modelled as an insertion-ordered
duplicate-free list. -/
def addToSet (s : List (List Char)) (x : List Char) : List (List Char) :=
  if x ∈ s then s else s ++ [x]

/-- `_extract_defines_and_includes_fixed` (lines 256-271): collects
`-D` identifiers other than `gcc` whose `-D`-prefixed form is not in the
unsupported-keyword table, and `-I` paths not starting with `+` (the
matched run is non-empty and whitespace-free by construction, so the
source's `match and match.strip()` test is always passed). -/
def extract_defines_and_includes_fixed (content : List Char) :
    List (List Char) × List (List Char) :=
  ((defineScan content).foldl
     (fun s m =>
        if m ≠ ("gcc").toList ∧ ('-' :: 'D' :: m) ∉ unsupported_gcc_keywords
        then addToSet s m else s) [],
   (includeScan content).foldl
     (fun s m => if m.head? = some '+' then s else addToSet s m) [])

/-! ### The flag-assignment scan of `_analyze_compiler_flags_fixed`

The source matches, per flag kind, the pattern
`NAME\s*[+:]?=\s*(.+?)(?=\n\s*\w+\s*[=:]|\n\s*$|#)` with
`re.IGNORECASE | re.MULTILINE | re.DOTALL` and `re.findall`.  The pieces
below spell out that pattern's backtracking semantics: the `\s*` runs
before `[+:]?=` are deterministic (their follow sets are disjoint from
whitespace), the `\s*` after `=` backtracks greedily, the capture `(.+?)`
is lazy, and the lookahead is a plain boolean test on the suffix at the
candidate stop position (`$` is multiline here, so `\n\s*$` succeeds when
a newline inside or at the end of the whitespace run follows). -/

/-- Case-insensitive literal match of the (ASCII) flag name; returns the
remaining suffix. -/
def matchNameCI : List Char → List Char → Option (List Char)
  | [], s => some s
  | _ :: _, [] => none
  | p :: ps, c :: cs => if p.toLower = c.toLower then matchNameCI ps cs else none

/-- The lookahead `(?=\n\s*\w+\s*[=:]|\n\s*$|#)` tested at a suffix. -/
def lookaheadStops (s : List Char) : Bool :=
  match s with
  | '#' :: _ => true
  | '\n' :: r =>
      (match r.dropWhile pyIsSpace with
       | c :: _ =>
           pyIsWord c &&
           (match ((r.dropWhile pyIsSpace).dropWhile pyIsWord).dropWhile pyIsSpace with
            | d :: _ => d = '=' || d = ':'
            | [] => false)
       | [] => false)
      || (r.takeWhile pyIsSpace).contains '\n'
      || r.dropWhile pyIsSpace = []
  | _ => false

/-- Lazy capture `(.+?)` (dotall: any character) up to the first position
where the lookahead succeeds; returns the captured group and the suffix
at the match end. -/
def lazyCapture : List Char → Option (List Char × List Char)
  | [] => none
  | c :: r =>
      if lookaheadStops r then some ([c], r)
      else match lazyCapture r with
           | some (g, rem) => some (c :: g, rem)
           | none => none

/-- Greedy backtracking over the `\s*` run after `=`: the longest
whitespace prefix is tried first; on failure of the lazy capture the run
is shortened one character at a time. -/
def wsRetry : Nat → List Char → Option (List Char × List Char)
  | 0, t => lazyCapture t
  | k + 1, t =>
      match lazyCapture (t.drop (k + 1)) with
      | some res => some res
      | none => wsRetry k t

/-- The part of the pattern after `=`. -/
def matchAfterEq (t : List Char) : Option (List Char × List Char) :=
  wsRetry (t.takeWhile pyIsSpace).length t

/-- Attempt the whole flag pattern at one position. -/
def matchFlagAt (name s : List Char) : Option (List Char × List Char) :=
  match matchNameCI name s with
  | none => none
  | some r1 =>
      match r1.dropWhile pyIsSpace with
      | '=' :: r4 => matchAfterEq r4
      | '+' :: '=' :: r4 => matchAfterEq r4
      | ':' :: '=' :: r4 => matchAfterEq r4
      | _ => none

/-- Leftmost, non-overlapping `findall`: scanning resumes after the match
end, or one character further on failure. -/
def scanFlagAux : Nat → List Char → List Char → List (List Char)
  | 0, _, _ => []
  | _ + 1, _, [] => []
  | fuel + 1, name, s@(_ :: rest) =>
      match matchFlagAt name s with
      | some (g, rem) => g :: scanFlagAux fuel name rem
      | none => scanFlagAux fuel name rest

/-- All captures of the flag pattern for one flag name; fuel
`length + 1` is sufficient since every step consumes at least one
character. -/
def scanFlag (name content : List Char) : List (List Char) :=
  scanFlagAux (content.length + 1) name content

/-! ### Cleaning a matched flag value (lines 236-241) -/

/-- Python `str.strip()` (whitespace from both ends). -/
def pyStripWs (l : List Char) : List Char :=
  ((l.dropWhile pyIsSpace).reverse.dropWhile pyIsSpace).reverse

/-- `re.sub(r'#.*$', '', value)` with neither MULTILINE nor DOTALL:
`$` only matches at the end of the string or just before a final
newline, so the sub removes a `#`-to-end tail whose remainder contains
no newline (a single final newline is kept). -/
def stripHashEnd : List Char → List Char
  | [] => []
  | '#' :: r =>
      if r.count '\n' = 0 then []
      else if r.count '\n' = 1 && r.getLast? = some '\n' then ['\n']
      else '#' :: stripHashEnd r
  | c :: r => c :: stripHashEnd r

/-- The strip set `'"\'+ \t\n'` of line 241. -/
def stripCharSet : List Char := ("\"'+ \t\n").toList

/-- Python `str.strip('"\'+ \t\n')`. -/
def stripQuotePlus (l : List Char) : List Char :=
  ((l.dropWhile stripCharSet.contains).reverse.dropWhile stripCharSet.contains).reverse

/-- Lines 237-241: `strip()`, then the comment sub, then the quote strip. -/
def cleanFlagValue (m : List Char) : List Char :=
  stripQuotePlus (stripHashEnd (pyStripWs m))

/-- One recorded entry of `unsupported_configs`. -/
structure UnsupportedConfig where
  flag : List Char
  value : List Char
  unsupported_keyword : List Char
deriving DecidableEq, Repr

/-- The three flag kinds, in the dict-insertion order of the source. -/
def flagKindNames : List (List Char) :=
  [("CFLAGS").toList, ("AFLAGS").toList, ("LFLAGS").toList]

/-- The entries one flag kind contributes (the body of the outer loop of
`_analyze_compiler_flags_fixed`, lines 233-252): every match is cleaned;
a non-empty cleaned value containing some keyword of the table yields
one entry recording the first such keyword in table order (the inner
`break` stops after it). -/
def flag_entries (content name : List Char) : List UnsupportedConfig :=
  (scanFlag name content).filterMap (fun m =>
     if cleanFlagValue m = [] then none
     else match isUnsupported (cleanFlagValue m) with
          | some kw => some ⟨name, cleanFlagValue m, kw⟩
          | none => none)

/-- `_analyze_compiler_flags_fixed` (lines 222-254): the three flag
kinds in dict order, entries appended per kind. -/
def analyze_compiler_flags_fixed (content : List Char) : List UnsupportedConfig :=
  (flagKindNames.map (flag_entries content)).flatten

/-! ### `_extract_dist_handle` (lines 166-185)

Pattern 1 is `def\s+dist_handle\s*\([^)]*\)\s*:(.*?)(?=\n\s*def\s|\n\s*$|\Z)`
with `re.DOTALL` only — so `$` in the lookahead matches only at the end
of the string or just before a final newline, which makes the middle
alternative equivalent to "everything after this newline is whitespace". -/

/-- The lookahead `(?=\n\s*def\s|\n\s*$|\Z)` of pattern 1. -/
def distStops (s : List Char) : Bool :=
  match s with
  | [] => true
  | '\n' :: r =>
      (("def").toList.isPrefixOf (r.dropWhile pyIsSpace) &&
       (match (r.dropWhile pyIsSpace).drop 3 with
        | c :: _ => pyIsSpace c
        | [] => false))
      || r.all pyIsSpace
  | _ => false

/-- Lazy `(.*?)` up to the first position where `distStops` holds;
returns the capture and the suffix at the match end. -/
def lazyStarDist : List Char → Option (List Char × List Char)
  | [] => some ([], [])
  | c :: r =>
      if distStops (c :: r) then some ([], c :: r)
      else match lazyStarDist r with
           | some (g, rem) => some (c :: g, rem)
           | none => none

/-- Pattern 1 tried at one position; returns `group(0)` (the whole
matched text, the zero-width lookahead not included). -/
def matchDistHandleAt (s : List Char) : Option (List Char) :=
  if ("def").toList.isPrefixOf s then
    let r1 := s.drop 3
    if r1.takeWhile pyIsSpace = [] then none
    else
      let r2 := r1.dropWhile pyIsSpace
      if ("dist_handle").toList.isPrefixOf r2 then
        match (r2.drop 11).dropWhile pyIsSpace with
        | '(' :: r4 =>
            (let args := r4.takeWhile (fun c => c ≠ ')')
             match r4.drop args.length with
             | ')' :: r5 =>
                 (match r5.dropWhile pyIsSpace with
                  | ':' :: r6 =>
                      (match lazyStarDist r6 with
                       | some (_, rem) => some (s.take (s.length - rem.length))
                       | none => none)
                  | _ => none)
             | _ => none)
        | _ => none
      else none
  else none

/-- `re.search` of pattern 1: leftmost match. -/
def searchDistHandle : List Char → Option (List Char)
  | [] => none
  | s@(_ :: r) =>
      match matchDistHandleAt s with
      | some g => some g
      | none => searchDistHandle r

/-- Python `str.find`: index of the first occurrence of a substring. -/
def findSubIdx (pat : List Char) : List Char → Option Nat
  | [] => if pat = [] then some 0 else none
  | s@(_ :: r) =>
      if pat.isPrefixOf s then some 0
      else (findSubIdx pat r).map (· + 1)

/-- Index of the last newline of a list (for `str.rfind('\n', 0, i)`). -/
def lastIdxNewline : List Char → Option Nat
  | [] => none
  | c :: r =>
      match lastIdxNewline r with
      | some i => some (i + 1)
      | none => if c = '\n' then some 0 else none

/-- Pattern 2, `def\s+dist_handle\s*\(.*?\).*?(?:\n{2,}|\Z)`, pieces:
lazy `.*?\)` consumes up to and including the first `)`. -/
def lazyParen : List Char → Option (List Char)
  | [] => none
  | ')' :: r => some r
  | _ :: r => lazyParen r

/-- Lazy `.*?(?:\n{2,}|\Z)`: stop at the first run of at least two
newlines (consumed greedily) or at the end; returns the suffix at the
match end. -/
def lazyTail2 : List Char → List Char
  | [] => []
  | '\n' :: '\n' :: r => ('\n' :: '\n' :: r).dropWhile (fun c => c = '\n')
  | _ :: r => lazyTail2 r

/-- Pattern 2 tried at one position; returns the consumed length. -/
def matchDist2At (s : List Char) : Option Nat :=
  if ("def").toList.isPrefixOf s then
    let r1 := s.drop 3
    if r1.takeWhile pyIsSpace = [] then none
    else
      let r2 := r1.dropWhile pyIsSpace
      if ("dist_handle").toList.isPrefixOf r2 then
        match (r2.drop 11).dropWhile pyIsSpace with
        | '(' :: r4 =>
            (match lazyParen r4 with
             | some r5 => some (s.length - (lazyTail2 r5).length)
             | none => none)
        | _ => none
      else none
  else none

/-- `re.search` of pattern 2. -/
def searchDist2 : List Char → Option (List Char)
  | [] => none
  | s@(_ :: r) =>
      match matchDist2At s with
      | some n => some (s.take n)
      | none => searchDist2 r

/-- `_extract_dist_handle`: on a pattern-1 hit, the code is re-sliced
from the start of the `def` line (via `find`/`rfind`) to the match end;
otherwise pattern 2's whole match is taken; otherwise the empty string
is kept. -/
def extract_dist_handle (content : List Char) : List Char :=
  match searchDistHandle content with
  | some g0 =>
      let func_start := (findSubIdx g0 content).getD 0
      let func_end := func_start + g0.length
      let def_line_start :=
        match lastIdxNewline (content.take func_start) with
        | some i => i + 1
        | none => 0
      (content.take func_end).drop def_line_start
  | none =>
      match searchDist2 content with
      | some g => g
      | none => []

/-! ### `_extract_link_script` (lines 187-220) -/

/-- Character class `[\w/\.\-_]` of the `-T` pattern. -/
def isLinkChar (c : Char) : Bool :=
  pyIsWord c || c = '/' || c = '.' || c = '-' || c = '_'

/-- Backtracking of `[\w/\.\-_]+\.lds?` inside the maximal class run:
the longest non-empty prefix followed by `.ld` wins, and a following
`s` is taken greedily. -/
def ldTryP : Nat → List Char → Option (List Char)
  | 0, _ => none
  | p + 1, run =>
      let rest := run.drop (p + 1)
      if ('.' :: 'l' :: 'd' :: []).isPrefixOf rest then
        some (run.take (p + 1) ++ '.' :: 'l' :: 'd' ::
              (if (rest.drop 3).head? = some 's' then ['s'] else []))
      else ldTryP p run

/-- The pattern `-T\s+([\w/\.\-_]+\.lds?)` tried at one position. -/
def matchTLinkAt (s : List Char) : Option (List Char) :=
  match s with
  | '-' :: 'T' :: r =>
      if r.takeWhile pyIsSpace = [] then none
      else
        let run := (r.dropWhile pyIsSpace).takeWhile isLinkChar
        ldTryP (run.length - 3) run
  | _ => none

/-- `re.search` of the `-T` pattern. -/
def searchTLink : List Char → Option (List Char)
  | [] => none
  | s@(_ :: r) =>
      match matchTLinkAt s with
      | some g => some g
      | none => searchTLink r

/-- Case-sensitive literal match. -/
def matchNameCS : List Char → List Char → Option (List Char)
  | [], s => some s
  | _ :: _, [] => none
  | p :: ps, c :: cs => if p = c then matchNameCS ps cs else none

/-- `NAME\s*=\s*['"]([^'"]+)['"]` tried at one position (`ci` selects
case-insensitive matching of the name, used by the field-extraction
patterns but not by the link-script ones). -/
def matchQuotedAt (ci : Bool) (name s : List Char) : Option (List Char) :=
  match (if ci then matchNameCI name s else matchNameCS name s) with
  | none => none
  | some r1 =>
      match r1.dropWhile pyIsSpace with
      | '=' :: r3 =>
          (match r3.dropWhile pyIsSpace with
           | q :: r5 =>
               if q = '\'' || q = '"' then
                 (let grp := r5.takeWhile (fun c => c ≠ '\'' && c ≠ '"')
                  if grp = [] then none
                  else match r5.drop grp.length with
                       | q2 :: _ => if q2 = '\'' || q2 = '"' then some grp else none
                       | [] => none)
               else none
           | [] => none)
      | _ => none

/-- `re.search` for the quoted-assignment patterns. -/
def searchQuoted (ci : Bool) (name : List Char) : List Char → Option (List Char)
  | [] => none
  | s@(_ :: r) =>
      match matchQuotedAt ci name s with
      | some g => some g
      | none => searchQuoted ci name r

/-- The fixed probe list of conventional linker-script paths (lines
208-214). -/
def common_link_paths : List (List Char) :=
  [("board/linker_scripts/link.lds").toList,
   ("linker_scripts/link.lds").toList,
   ("scripts/link.lds").toList,
   ("link.lds").toList,
   ("linker.ld").toList]

/-- `_extract_link_script`: the three text patterns in order (these are
case-sensitive), backslashes normalised to slashes on a hit; otherwise
the first conventional path that exists next to the source file
(`fsExists` models `(bsp_dir / path).exists()`). -/
def extract_link_script (content : List Char) (fsExists : List Char → Bool) :
    Option (List Char) :=
  let fromPatterns :=
    match searchTLink content with
    | some g => some g
    | none =>
        match searchQuoted false (("link_script").toList) content with
        | some g => some g
        | none => searchQuoted false (("LINK_SCRIPT").toList) content
  match fromPatterns with
  | some p => some (p.map (fun c => if c = '\\' then '/' else c))
  | none => common_link_paths.find? fsExists

/-! ### The data model of the analysis (`analyze`, lines 61-104)

Python values stored in the result dict are modelled by `PyLit`
(the literal shapes `ast.literal_eval` can produce that the tool's six
canonical fields can carry); an assignment's right-hand side is either
such a literal or, when not literally evaluable, the un-evaluated source
text produced by `ast.unparse` (`Sum.inr`). -/

inductive PyLit where
  | pyStr : List Char → PyLit
  | pyInt : Int → PyLit
  | pyBool : Bool → PyLit
  | pyNone : PyLit
deriving DecidableEq, Repr

/-- Python `str()` of a stored value, as an f-string renders it. -/
def pyLitStr : PyLit → List Char
  | .pyStr s => s
  | .pyInt n => (toString n).toList
  | .pyBool b => if b then ("True").toList else ("False").toList
  | .pyNone => ("None").toList

/-- Python `str()` of a dict slot that may hold `None`
(`analyze` pre-populates every canonical field with `None`, so their
`dict.get(key, default)` reads below always see the stored value). -/
def pyOptStr : Option PyLit → List Char
  | some v => pyLitStr v
  | none => ("None").toList

/-- An assignment target of an `ast.Assign` node: a plain `ast.Name` or
any other target shape (which the walk skips). -/
inductive PyTarget where
  | name : List Char → PyTarget
  | other : PyTarget
deriving DecidableEq, Repr

abbrev VarValue := PyLit ⊕ List Char

/-- One `ast.Assign` node as seen by `ast.walk`, in walk order. -/
structure AstAssign where
  targets : List PyTarget
  value : VarValue
deriving DecidableEq, Repr

/-- Python dict assignment `d[k] = v`: replace in place or append. -/
def upsert (l : List (List Char × VarValue)) (k : List Char) (v : VarValue) :
    List (List Char × VarValue) :=
  match l with
  | [] => [(k, v)]
  | (k0, v0) :: rest =>
      if k0 = k then (k0, v) :: rest else (k0, v0) :: upsert rest k v

/-- The result dict of `analyze` (lines 63-77) together with the
analyzer attributes that feed generation (`parsed_successfully`,
`dist_handle_code`); the unused `gcc_config` slot is omitted.  Defaults
are the dict's initial values. -/
structure AnalysisResult where
  arch : Option PyLit := none
  cpu : Option PyLit := none
  cross_tool : Option PyLit := none
  platform : Option PyLit := none
  exec_path : Option PyLit := none
  build : PyLit := .pyStr (("debug").toList)
  unsupported_configs : List UnsupportedConfig := []
  original_variables : List (List Char × VarValue) := []
  dist_handle_found : Bool := false
  dist_handle_code : List Char := []
  linker_script : Option (List Char) := none
  defines : List (List Char) := []
  includes : List (List Char) := []
  parsed_successfully : Bool := false
deriving DecidableEq, Repr

/-- Alias lists of `_extract_from_ast` (lines 119-130).  Note that line
123 of the source lists `CROSS_TOOL` twice: the lowercase alias is
absent. -/
def archAliases : List (List Char) := [("ARCH").toList, ("arch").toList]

def cpuAliases : List (List Char) := [("CPU").toList, ("cpu").toList]

def crossToolAliases : List (List Char) := [("CROSS_TOOL").toList, ("CROSS_TOOL").toList]

def platformAliases : List (List Char) := [("PLATFORM").toList, ("platform").toList]

def execPathAliases : List (List Char) := [("EXEC_PATH").toList, ("exec_path").toList]

def buildAliases : List (List Char) := [("BUILD").toList, ("build").toList]

/-- Processing of one literally-evaluated `Name` target: the source
first stores the value into `original_variables` (line 116) and then
runs the `if/elif` alias chain (lines 119-130); the two record updates
are merged into each branch here. -/
def apply_assign_target (r : AnalysisResult) (nm : List Char) (v : PyLit) :
    AnalysisResult :=
  if nm ∈ archAliases then
    { r with original_variables := upsert r.original_variables nm (.inl v),
             arch := some v }
  else if nm ∈ cpuAliases then
    { r with original_variables := upsert r.original_variables nm (.inl v),
             cpu := some v }
  else if nm ∈ crossToolAliases then
    { r with original_variables := upsert r.original_variables nm (.inl v),
             cross_tool := some v }
  else if nm ∈ platformAliases then
    { r with original_variables := upsert r.original_variables nm (.inl v),
             platform := some v }
  else if nm ∈ execPathAliases then
    { r with original_variables := upsert r.original_variables nm (.inl v),
             exec_path := some v }
  else if nm ∈ buildAliases then
    { r with original_variables := upsert r.original_variables nm (.inl v),
             build := v }
  else
    { r with original_variables := upsert r.original_variables nm (.inl v) }

/-- One assignment target of a node whose value is `value`: a `Name`
with a literal runs the alias chain, a `Name` with a non-literal only
records the unparsed text (the `except` branch, lines 132-134), any
other target shape is skipped. -/
def process_target (value : VarValue) (r : AnalysisResult) : PyTarget → AnalysisResult
  | .name nm =>
      (match value with
       | .inl v => apply_assign_target r nm v
       | .inr txt =>
           { r with original_variables := upsert r.original_variables nm (.inr txt) })
  | .other => r

/-- `_extract_from_ast` (lines 106-134): every `Assign` node in walk
order, every `Name` target. -/
def extract_from_ast (tree : List AstAssign) (res : AnalysisResult) :
    AnalysisResult :=
  tree.foldl (fun r a => a.targets.foldl (process_target a.value) r) res

/-! ### `_extract_with_regex` (lines 136-164) -/

/-- Python `str.strip('\'"')`. -/
def stripQuotes (l : List Char) : List Char :=
  ((l.dropWhile (fun c => c = '\'' || c = '"')).reverse.dropWhile
     (fun c => c = '\'' || c = '"')).reverse

/-- Lazy `(.+?)(?:\n|$)` of the `EXEC_PATH` pattern: at least one
non-newline character, stopping at the first newline or the end. -/
def lazyLineCapture : List Char → Option (List Char × List Char)
  | [] => none
  | c :: r =>
      if c = '\n' then none
      else if (match r with | [] => true | '\n' :: _ => true | _ => false) then
        some ([c], r)
      else match lazyLineCapture r with
           | some (g, rem) => some (c :: g, rem)
           | none => none

/-- Greedy backtracking over `\s*` after `=` for the `EXEC_PATH`
pattern. -/
def wsRetryLine : Nat → List Char → Option (List Char)
  | 0, t => (lazyLineCapture t).map Prod.fst
  | k + 1, t =>
      match lazyLineCapture (t.drop (k + 1)) with
      | some res => some res.1
      | none => wsRetryLine k t

/-- `EXEC_PATH\s*=\s*(.+?)(?:\n|$)` tried at one position. -/
def matchExecPathAt (s : List Char) : Option (List Char) :=
  match matchNameCI (("EXEC_PATH").toList) s with
  | none => none
  | some r1 =>
      match r1.dropWhile pyIsSpace with
      | '=' :: r3 => wsRetryLine (r3.takeWhile pyIsSpace).length r3
      | _ => none

/-- `re.search` for the `EXEC_PATH` pattern. -/
def searchExecPath : List Char → Option (List Char)
  | [] => none
  | s@(_ :: r) =>
      match matchExecPathAt s with
      | some g => some g
      | none => searchExecPath r

/-- `_extract_with_regex`: the six case-insensitive patterns in dict
order, each `re.search`ed independently; a hit stores the
quote-stripped group under the canonical (uppercase) name and fills the
matching field. -/
def extract_with_regex (content : List Char) (res : AnalysisResult) :
    AnalysisResult :=
  let step := fun (res : AnalysisResult) (key : List Char)
                  (hit : Option (List Char))
                  (put : AnalysisResult → PyLit → AnalysisResult) =>
    match hit with
    | some g =>
        let v : PyLit := .pyStr (stripQuotes g)
        put { res with original_variables := upsert res.original_variables key (.inl v) } v
    | none => res
  let res := step res (("ARCH").toList) (searchQuoted true (("ARCH").toList) content)
               (fun r v => { r with arch := some v })
  let res := step res (("CPU").toList) (searchQuoted true (("CPU").toList) content)
               (fun r v => { r with cpu := some v })
  let res := step res (("CROSS_TOOL").toList) (searchQuoted true (("CROSS_TOOL").toList) content)
               (fun r v => { r with cross_tool := some v })
  let res := step res (("PLATFORM").toList) (searchQuoted true (("PLATFORM").toList) content)
               (fun r v => { r with platform := some v })
  let res := step res (("EXEC_PATH").toList) (searchExecPath content)
               (fun r v => { r with exec_path := some v })
  let res := step res (("BUILD").toList) (searchQuoted true (("BUILD").toList) content)
               (fun r v => { r with build := v })
  res

/-- `RTConfigAnalyzer.analyze` (lines 61-104).  `astTree` models the
outcome of `ast.parse` on the content: `some` holds the `Assign` nodes
in walk order on a successful parse, `none` is the `SyntaxError` case,
which the source catches and answers with the regex fallback.
`fsExists` is the filesystem probe used only by the link-script step. -/
def analyze (content : List Char) (astTree : Option (List AstAssign))
    (fsExists : List Char → Bool) : AnalysisResult :=
  let dh := extract_dist_handle content
  let ls := extract_link_script content fsExists
  let base : AnalysisResult := {}
  let r1 :=
    match astTree with
    | some tree => { extract_from_ast tree base with parsed_successfully := true }
    | none => { extract_with_regex content base with parsed_successfully := false }
  let r2 := { r1 with unsupported_configs := analyze_compiler_flags_fixed content }
  let di := extract_defines_and_includes_fixed content
  { r2 with
    dist_handle_found := dh ≠ [],
    dist_handle_code := dh,
    linker_script := ls,
    defines := di.1,
    includes := di.2 }

/-! ### `RTConfigGenerator` (lines 280-536) -/

/-- `pathlib.Path(p).name`: the part after the last slash. -/
def pathName (p : List Char) : List Char :=
  (p.reverse.takeWhile (fun c => c ≠ '/')).reverse

/-- Python string `<` (lexicographic on code points). -/
def pyStrLt : List Char → List Char → Bool
  | [], [] => false
  | [], _ :: _ => true
  | _ :: _, [] => false
  | a :: as', b :: bs => if a = b then pyStrLt as' bs else decide (a.val < b.val)

def pyStrLe (a b : List Char) : Bool := pyStrLt a b || a = b

def insertStr (x : List Char) : List (List Char) → List (List Char)
  | [] => [x]
  | y :: ys => if pyStrLe x y then x :: y :: ys else y :: insertStr x ys

/-- Python `sorted` on a list of strings (insertion sort, ascending). -/
def sortStr : List (List Char) → List (List Char)
  | [] => []
  | x :: xs => insertStr x (sortStr xs)

/-- Python `str.replace(pat, '')` with non-empty `pat`: leftmost,
non-overlapping occurrences removed. -/
def pyRemoveAllAux : Nat → List Char → List Char → List Char
  | 0, _, s => s
  | _ + 1, _, [] => []
  | fuel + 1, pat, s@(c :: r) =>
      if pat.isPrefixOf s then pyRemoveAllAux fuel pat (s.drop pat.length)
      else c :: pyRemoveAllAux fuel pat r

def pyRemoveAll (s pat : List Char) : List Char :=
  if pat = [] then s else pyRemoveAllAux (s.length + 1) pat s

/-- `LIT\w+` tried at one position (for `-fdump-rtl-\w+` and
`-std=\w+`): the literal followed by a non-empty greedy word run. -/
def litWordAt (lit s : List Char) : Option (List Char) :=
  if lit.isPrefixOf s then
    (let run := (s.drop lit.length).takeWhile pyIsWord
     if run = [] then none else some (lit ++ run))
  else none

/-- `re.search` of a literal-plus-word-run pattern. -/
def searchLitWord (lit : List Char) : List Char → Option (List Char)
  | [] => none
  | s@(_ :: r) =>
      match litWordAt lit s with
      | some g => some g
      | none => searchLitWord lit r

/-- `_determine_fpu` (lines 480-487): a dict lookup on the stored cpu
value, empty string on a miss (including a `None` or non-string cpu). -/
def determine_fpu (cpu : Option PyLit) : List Char :=
  if cpu = some (.pyStr (("cortex-m4").toList)) then ("fpv4-sp-d16").toList
  else if cpu = some (.pyStr (("cortex-m7").toList)) then ("fpv5-d16").toList
  else if cpu = some (.pyStr (("cortex-m33").toList)) then ("fpv5-sp-d16").toList
  else []

/-- `_generate_safe_cflags_fixed` (lines 489-532): `' -Dgcc'`, sorted
defines, sorted non-blank includes, then — if some `unsupported_configs`
entry has kind CFLAGS — the keyword-stripped original value is probed
for the three "useful" patterns and each first match is appended. -/
def generate_safe_cflags_fixed (defines includes : List (List Char))
    (unsupported_configs : List UnsupportedConfig) : List Char :=
  let safe1 := (" -Dgcc").toList
  let safe2 := (sortStr defines).foldl (fun acc d => acc ++ (" -D").toList ++ d) safe1
  let safe3 := (sortStr includes).foldl
      (fun acc i => if i ≠ [] ∧ pyStripWs i ≠ [] then acc ++ (" -I").toList ++ i else acc)
      safe2
  let original_cflags :=
    match unsupported_configs.find? (fun c => decide (c.flag = ("CFLAGS").toList)) with
    | some c => c.value
    | none => []
  if original_cflags = [] then safe3
  else
    let filtered := unsupported_gcc_keywords.foldl (fun acc k => pyRemoveAll acc k)
                      original_cflags
    let s4 := if ("-fstack-usage").toList <:+: filtered
              then safe3 ++ (" -fstack-usage").toList else safe3
    let s5 := match searchLitWord (("-fdump-rtl-").toList) filtered with
              | some g => s4 ++ ' ' :: g
              | none => s4
    match searchLitWord (("-std=").toList) filtered with
    | some g => s5 ++ ' ' :: g
    | none => s5

/-- The 52-`=` section separator used throughout the generator. -/
def sepLine : List Char := '#' :: ' ' :: List.replicate 52 '='

/-- `_add_header` (lines 319-328); `ts` is the timestamp string
`datetime.now().strftime('%Y-%m-%d %H:%M:%S')`, `original_file` the
`original_file` slot that `main` adds to the analysis dict (empty when
absent). -/
def add_header (original_file ts : List Char) : List (List Char) :=
  [("#!/usr/bin/env python3").toList,
   ("\"\"\"").toList,
   ("RT-Thread BSP配置文件").toList,
   ("从原始配置自动迁移生成，适配Linux环境").toList,
   ("原始文件: ").toList ++ pathName original_file,
   ("生成时间: ").toList ++ ts,
   ("\"\"\"").toList,
   []]

/-- `_add_basic_config` (lines 330-379).  The dict reads
`analysis.get('arch', 'arm')` / `get('cpu', 'cortex-m4')` /
`get('build', 'debug')` never fall back to their defaults because
`analyze` pre-populates all three keys (with `None`, `None`, `'debug'`);
a `None` value is rendered by the f-string as the text `None`. -/
def add_basic_config (arch cpu : Option PyLit) (build : PyLit) : List (List Char) :=
  [sepLine,
   ("# 基本配置").toList,
   sepLine,
   ("ARCH = '").toList ++ pyOptStr arch ++ ['\''],
   ("CPU = '").toList ++ pyOptStr cpu ++ ['\''],
   ("CROSS_TOOL = 'gcc'").toList,
   [],
   ("# BSP库类型").toList,
   ("BSP_LIBRARY_TYPE = None").toList,
   [],
   ("# 环境变量覆盖").toList,
   ("if os.getenv('RTT_CC'):").toList,
   ("    CROSS_TOOL = os.getenv('RTT_CC')").toList,
   ("if os.getenv('RTT_ROOT'):").toList,
   ("    RTT_ROOT = os.getenv('RTT_ROOT')").toList,
   [],
   ("# 工具链选择 - Linux下只支持GCC").toList,
   ("if CROSS_TOOL == 'gcc':").toList,
   ("    PLATFORM = 'gcc'").toList,
   ("    EXEC_PATH = '/usr/bin'  # Linux默认路径").toList,
   ("elif CROSS_TOOL == 'keil':").toList,
   ("    print(\"警告: Keil MDK在Linux下不可用，请切换到GCC\")").toList,
   ("    PLATFORM = 'armcc'").toList,
   ("    EXEC_PATH = '/usr/bin'").toList,
   ("elif CROSS_TOOL == 'iar':").toList,
   ("    print(\"警告: IAR在Linux下不可用，请切换到GCC\")").toList,
   ("    PLATFORM = 'iccarm'").toList,
   ("    EXEC_PATH = '/usr/bin'").toList,
   ("else:").toList,
   ("    print(f\"不支持的编译器: {CROSS_TOOL}\")").toList,
   ("    exit(1)").toList,
   [],
   ("if os.getenv('RTT_EXEC_PATH'):").toList,
   ("    EXEC_PATH = os.getenv('RTT_EXEC_PATH')").toList,
   [],
   ("BUILD = '").toList ++ pyLitStr build ++ ['\''],
   []]

/-- `_add_toolchain_config` (lines 381-405); the cpu/fpu values it
computes are unused in its own output. -/
def add_toolchain_config : List (List Char) :=
  [sepLine,
   ("# GCC工具链配置").toList,
   sepLine,
   ("if PLATFORM == 'gcc':").toList,
   ("    # 工具链命令").toList,
   ("    PREFIX = 'arm-none-eabi-'").toList,
   ("    CC = PREFIX + 'gcc'").toList,
   ("    AS = PREFIX + 'gcc'").toList,
   ("    AR = PREFIX + 'ar'").toList,
   ("    CXX = PREFIX + 'g++'").toList,
   ("    LINK = PREFIX + 'gcc'").toList,
   ("    TARGET_EXT = 'elf'").toList,
   ("    SIZE = PREFIX + 'size'").toList,
   ("    OBJDUMP = PREFIX + 'objdump'").toList,
   ("    OBJCPY = PREFIX + 'objcopy'").toList,
   []]

/-- The `DEVICE` flag string of `_add_gcc_config` (lines 409-417); the
float ABI suffix is only appended when the fpu lookup hit, in which
case it is always `hard`. -/
def device_flags (cpu : Option PyLit) : List Char :=
  let fpu := determine_fpu cpu
  (" -mcpu=").toList ++ pyOptStr cpu ++ (" -mthumb").toList
    ++ (if fpu ≠ [] then (" -mfpu=").toList ++ fpu ++ (" -mfloat-abi=hard").toList else [])
    ++ (" -ffunction-sections -fdata-sections").toList

/-- `_add_other_compiler_stubs` (lines 462-478). -/
def add_other_compiler_stubs : List (List Char) :=
  [("elif PLATFORM == 'armcc':").toList,
   ("    # ARMCC配置 (Linux下不可用)").toList,
   ("    print(\"错误: ARMCC在Linux下不可用，请使用GCC\")").toList,
   ("    exit(1)").toList,
   [],
   ("elif PLATFORM == 'armclang':").toList,
   ("    # ARMClang配置 (Linux下不可用)").toList,
   ("    print(\"错误: ARMClang在Linux下不可用，请使用GCC\")").toList,
   ("    exit(1)").toList,
   [],
   ("elif PLATFORM == 'iccarm':").toList,
   ("    # IAR配置 (Linux下不可用)").toList,
   ("    print(\"错误: IAR在Linux下不可用，请使用GCC\")").toList,
   ("    exit(1)").toList,
   []]

/-- `_add_gcc_config` (lines 407-460).  The linker-script read
`analysis.get('linker_script', 'board/linker_scripts/link.lds')` never
falls back either (the key is always present); `None` renders as the
text `None`. -/
def add_gcc_config (cpu : Option PyLit) (linker_script : Option (List Char))
    (defines includes : List (List Char))
    (unsupported_configs : List UnsupportedConfig) : List (List Char) :=
  [("    # 编译参数").toList,
   ("    DEVICE = '").toList ++ device_flags cpu ++ ['\''],
   ("    CFLAGS = DEVICE + '").toList
     ++ generate_safe_cflags_fixed defines includes unsupported_configs ++ ['\''],
   ("    AFLAGS = ' -c' + DEVICE + ' -x assembler-with-cpp -Wa,-mimplicit-it=thumb '").toList,
   ("    LFLAGS = DEVICE + ' -Wl,--gc-sections,-Map=rt-thread.map,-cref,-u,Reset_Handler -T ").toList
     ++ (match linker_script with
         | some s => s
         | none => ("None").toList) ++ ['\''],
   ("    CPATH = ''").toList,
   ("    LPATH = ''").toList,
   [],
   ("    if BUILD == 'debug':").toList,
   ("        CFLAGS += ' -O0 -gdwarf-2 -g'").toList,
   ("        AFLAGS += ' -gdwarf-2'").toList,
   ("    else:").toList,
   ("        CFLAGS += ' -O2'").toList,
   [],
   ("    CXXFLAGS = CFLAGS").toList,
   [],
   ("    POST_ACTION = OBJCPY + ' -O binary $TARGET rtthread.bin\\n' + SIZE + ' $TARGET \\n'").toList,
   []]
  ++ add_other_compiler_stubs
  ++ [("else:").toList,
      ("    print('不支持的平台: ' + PLATFORM)").toList,
      ("    exit(1)").toList,
      []]

/-- `RTConfigGenerator.generate` (lines 289-317), as the list of lines
it appends; the preserved handler block is appended only when
`dist_handle_code` is non-empty. -/
def generated_lines (r : AnalysisResult) (original_file ts : List Char) :
    List (List Char) :=
  add_header original_file ts
  ++ [("import os").toList, []]
  ++ add_basic_config r.arch r.cpu r.build
  ++ add_toolchain_config
  ++ add_gcc_config r.cpu r.linker_script r.defines r.includes r.unsupported_configs
  ++ (if r.dist_handle_code ≠ [] then
        [[], sepLine, ("# 发布处理函数 (从原始文件保留)").toList, sepLine,
         r.dist_handle_code]
      else [])

/-- Python `'\n'.join`. -/
def joinLines : List (List Char) → List Char
  | [] => []
  | [l] => l
  | l :: l2 :: ls => l ++ '\n' :: joinLines (l2 :: ls)

/-- The generated configuration text. -/
def generate (r : AnalysisResult) (original_file ts : List Char) : List Char :=
  joinLines (generated_lines r original_file ts)

/-! ### `generate_migration_report` (lines 538-636) and `main`
(lines 663-788) -/

/-- `windows_path_patterns` (lines 54-59); they are regex texts but are
used only as lowercase literal substrings by `is_windows_path`. -/
def windows_path_patterns : List (List Char) :=
  [("C:\\Users\\.*").toList,
   ("C:/.*").toList,
   ("D:\\Progrem\\.*").toList,
   ("Program Files.*").toList]

def toLowerList (l : List Char) : List Char := l.map Char.toLower

/-- `is_windows_path` (lines 273-278): lowercase substring containment
against the pattern texts. -/
def is_windows_path (path : List Char) : Bool :=
  if path = [] then false
  else windows_path_patterns.any
    (fun pat => decide (toLowerList pat <:+: toLowerList path))

/-- Python truthiness of a stored value. -/
def pyTruthy : PyLit → Bool
  | .pyStr s => s ≠ []
  | .pyInt n => n ≠ 0
  | .pyBool b => b
  | .pyNone => false

/-- A run of `n` copies of a character (`'=' * 60`, `'-' * 40`). -/
def charRun (c : Char) (n : Nat) : List Char := List.replicate n c

/-- `generate_migration_report` (lines 538-636), as its list of lines.
The dict reads on pre-populated keys again never fall back to the `get`
defaults (`"N/A"`, `"未找到，使用默认"`): a `None` value renders as the
text `None`.  `is_windows_path` is applied to the string form of the
stored `exec_path` (a truthy non-string value would raise in the
source). -/
def migration_report (r : AnalysisResult)
    (original_file backup_path report_path output_path : List Char) :
    List (List Char) :=
  [charRun '=' 60,
   ("RT-Thread BSP配置迁移报告").toList,
   charRun '=' 60,
   [],
   ("📋 基本信息").toList,
   charRun '-' 40,
   ("原始文件: ").toList ++ original_file,
   ("架构: ").toList ++ pyOptStr r.arch,
   ("CPU: ").toList ++ pyOptStr r.cpu,
   ("原始编译器: ").toList ++ pyOptStr r.cross_tool,
   ("构建类型: ").toList ++ pyLitStr r.build,
   ("链接脚本: ").toList ++ (match r.linker_script with
                             | some s => s
                             | none => ("None").toList),
   ("dist_handle函数: ").toList ++ (if r.dist_handle_found then ("找到").toList
                                    else ("未找到").toList),
   [],
   ("🔧 提取的编译参数").toList,
   charRun '-' 40]
  ++ (if r.defines ≠ [] then
        ("✅ 宏定义 (-D):").toList ::
          (sortStr r.defines).map (fun d => ("  -D").toList ++ d)
      else [("⚠️ 未提取到宏定义").toList])
  ++ [[]]
  ++ (if r.includes ≠ [] then
        ("✅ 头文件路径 (-I):").toList ::
          (sortStr r.includes).map (fun i => ("  -I").toList ++ i)
      else [("⚠️ 未提取到头文件路径").toList])
  ++ [[],
      ("🔧 修改内容").toList,
      charRun '-' 40]
  ++ (match r.exec_path with
      | some v =>
          if pyTruthy v && is_windows_path (pyLitStr v) then
            [("✓ Windows路径已替换为Linux路径").toList,
             ("  原始: ").toList ++ pyLitStr v,
             ("  新: /usr/bin (可通过RTT_EXEC_PATH环境变量覆盖)").toList]
          else [("✓ 路径配置无需修改").toList]
      | none => [("✓ 路径配置无需修改").toList])
  ++ [("✓ 简化了编译器支持，主要保留GCC").toList,
      ("✓ 自动探测链接脚本路径").toList,
      []]
  ++ (if r.unsupported_configs ≠ [] then
        ("⚠️ 不支持的编译参数（已移除）").toList :: charRun '-' 40 ::
          (r.unsupported_configs.map (fun c =>
             [("  ").toList ++ c.flag ++ [':'],
              ("    原因: 包含GCC不支持的选项 \"").toList ++ c.unsupported_keyword ++ ['"'],
              ("    原始值: ").toList ++ c.value.take 100 ++ ("...").toList,
              []])).flatten
      else [("✅ 所有编译参数都兼容GCC").toList, []])
  ++ [("📁 生成的文件").toList,
      charRun '-' 40,
      ("输出文件: ").toList ++ output_path,
      ("备份文件: ").toList ++ backup_path,
      ("报告文件: ").toList ++ report_path,
      [],
      ("🚀 使用说明").toList,
      charRun '-' 40,
      ("1. 编译测试: scons").toList,
      ("2. 如果编译失败，检查工具链路径:").toList,
      ("   export RTT_EXEC_PATH=/path/to/your/toolchain").toList,
      ("3. 如果链接脚本路径不正确，请手动修改LFLAGS中的-T参数").toList,
      ("4. 恢复原始配置:").toList,
      ("   cp ").toList ++ backup_path ++ ' ' :: output_path,
      [],
      charRun '=' 60]

/-- `pathlib.Path.stem`: the name without its final suffix; a suffix
exists only when the last dot is neither the first nor the last
character of the name. -/
def pyStem (name : List Char) : List Char :=
  match name.reverse.dropWhile (fun c => c ≠ '.') with
  | [] => name
  | ['.'] => name
  | '.' :: rest =>
      if name.reverse.takeWhile (fun c => c ≠ '.') = [] then name
      else rest.reverse
  | _ => name

/-- `Path` joining with `/` (the `bsp_dir / x` operator; `bsp_dir` is
taken without a trailing slash). -/
def pathJoin (a b : List Char) : List Char := a ++ '/' :: b

/-- A mutating filesystem operation performed by `main`. -/
inductive FsOp where
  | copyFile : List Char → List Char → FsOp
  | writeFile : List Char → List Char → FsOp

/-- Effect of one operation on a path-to-content map. -/
def fsApply (fs : List Char → Option (List Char)) :
    FsOp → List Char → Option (List Char)
  | .copyFile src dst => fun p => if p = dst then fs src else fs p
  | .writeFile path content => fun p => if p = path then some content else fs p

def inputPathOf (bsp_dir name : List Char) : List Char := pathJoin bsp_dir name

def backupPathOf (bsp_dir name ts_file : List Char) : List Char :=
  pathJoin (pathJoin bsp_dir (("migration_logs").toList))
    (pyStem name ++ '.' :: ts_file ++ (".backup.py").toList)

def reportPathOf (bsp_dir name ts_file : List Char) : List Char :=
  pathJoin (pathJoin bsp_dir (("migration_logs").toList))
    (pyStem name ++ '.' :: ts_file ++ (".migration_report.txt").toList)

/-- The file-mutating steps of `main` (lines 692-744) in program order:
the backup copy (line 719, taken before the analyzer even reads the
file), then the generated text overwriting the input path (lines
733-735, after generation completed in memory), then the report write
(lines 743-744).  `main` sets `analysis['original_file']` to the input
path before generating.  `ts_file` is the filename timestamp
(`%Y%m%d_%H%M%S`), `ts_header` the header one (`%Y-%m-%d %H:%M:%S`). -/
def main_ops (bsp_dir name ts_file ts_header content : List Char)
    (astTree : Option (List AstAssign)) (fsExists : List Char → Bool) :
    List FsOp :=
  let input_path := inputPathOf bsp_dir name
  let backup_file := backupPathOf bsp_dir name ts_file
  let report_file := reportPathOf bsp_dir name ts_file
  let r := analyze content astTree fsExists
  [FsOp.copyFile input_path backup_file,
   FsOp.writeFile input_path (generate r input_path ts_header),
   FsOp.writeFile report_file
     (joinLines (migration_report r input_path backup_file report_file input_path))]

/-- The filesystem after a run of `main`. -/
def run_main (fs0 : List Char → Option (List Char))
    (bsp_dir name ts_file ts_header content : List Char)
    (astTree : Option (List AstAssign)) (fsExists : List Char → Bool) :
    List Char → Option (List Char) :=
  (main_ops bsp_dir name ts_file ts_header content astTree fsExists).foldl fsApply fs0

/-! ### Characterisation definitions used by the theorems -/

/-- The value an `Assign` node contributes for a given alias list: its
literal value when some `Name` target is one of the aliases. -/
def assignLit (aliases : List (List Char)) (a : AstAssign) : Option PyLit :=
  match a.value with
  | .inl v =>
      if a.targets.any (fun t => match t with
                                 | .name nm => decide (nm ∈ aliases)
                                 | .other => false)
      then some v else none
  | .inr _ => none

/-- The value of the last literal assignment to any alias of the list
over a whole walk. -/
def lastLitFor (aliases : List (List Char)) (tree : List AstAssign) : Option PyLit :=
  (tree.filterMap (assignLit aliases)).getLast?

/-- Spec-side reading of "the identifier occurs in the text as a
`-D<identifier>` token": a literal `-D` followed by the identifier,
which is a non-empty maximal run of word characters. -/
def occursDefineToken (content id : List Char) : Prop :=
  id ≠ [] ∧ (∀ c ∈ id, pyIsWord c) ∧
  ∃ a b, content = a ++ '-' :: 'D' :: (id ++ b) ∧ ∀ c ∈ b.take 1, ¬ pyIsWord c

/-- Scenario input of the spec's worked example (section 8): the
source text declaring `ARCH='arm'`, `CPU='cortex-m4'` and a `CFLAGS`
with one unsupported keyword, one macro define besides `gcc`, and one
include path. -/
def c8_content : List Char :=
  ("ARCH='arm'\nCPU='cortex-m4'\nCFLAGS=\"--no_inline -Dgcc -DUSE_HAL -Iinc\"\n").toList

/-- The `ast.walk` assignments of `c8_content` (which `ast.parse`
accepts: three top-level assignments of string literals). -/
def c8_tree : List AstAssign :=
  [⟨[.name (("ARCH").toList)], .inl (.pyStr (("arm").toList))⟩,
   ⟨[.name (("CPU").toList)], .inl (.pyStr (("cortex-m4").toList))⟩,
   ⟨[.name (("CFLAGS").toList)],
      .inl (.pyStr (("--no_inline -Dgcc -DUSE_HAL -Iinc").toList))⟩]

/-- The analysis of the scenario input (no linker script exists on
disk). -/
def c8_analysis : AnalysisResult := analyze c8_content (some c8_tree) (fun _ => false)

/-- A record carrying a non-empty preserved handler block, for the
round-trip witness. -/
def c6_record : AnalysisResult :=
  { dist_handle_code := ("def dist_handle(bsp_root, dist_dir):\n    pass").toList }

/-! ## Theorems -/

/-- The last element of a joined line list is a suffix of the join. -/
theorem joinLines_suffix_last (xs : List (List Char)) (l : List Char) :
    l <:+ joinLines (xs ++ [l]) := by
  induction xs with
  | nil => simp [joinLines]
  | cons x xs ih =>
      cases hxl : xs ++ [l] with
      | nil => simp at hxl
      | cons y ys =>
          rw [List.cons_append, hxl, joinLines]
          rw [hxl] at ih
          exact ih.trans ((List.suffix_cons '\n' _).trans (List.suffix_append x _))

/-! ### Alias-chain characterisation (for C1) -/

theorem cpuAlias_prev {nm : List Char} (h : nm ∈ cpuAliases) : nm ∉ archAliases := by
  fin_cases h <;> decide

theorem crossAlias_prev {nm : List Char} (h : nm ∈ crossToolAliases) :
    nm ∉ archAliases ∧ nm ∉ cpuAliases := by
  fin_cases h <;> exact ⟨by decide, by decide⟩

theorem platformAlias_prev {nm : List Char} (h : nm ∈ platformAliases) :
    nm ∉ archAliases ∧ nm ∉ cpuAliases ∧ nm ∉ crossToolAliases := by
  fin_cases h <;> exact ⟨by decide, by decide, by decide⟩

theorem execAlias_prev {nm : List Char} (h : nm ∈ execPathAliases) :
    nm ∉ archAliases ∧ nm ∉ cpuAliases ∧ nm ∉ crossToolAliases ∧ nm ∉ platformAliases := by
  fin_cases h <;> exact ⟨by decide, by decide, by decide, by decide⟩

theorem buildAlias_prev {nm : List Char} (h : nm ∈ buildAliases) :
    nm ∉ archAliases ∧ nm ∉ cpuAliases ∧ nm ∉ crossToolAliases ∧ nm ∉ platformAliases ∧
    nm ∉ execPathAliases := by
  fin_cases h <;> exact ⟨by decide, by decide, by decide, by decide, by decide⟩

theorem apply_assign_target_arch (r : AnalysisResult) (nm : List Char) (v : PyLit) :
    (apply_assign_target r nm v).arch = if nm ∈ archAliases then some v else r.arch := by
  unfold apply_assign_target
  split_ifs <;> rfl

theorem apply_assign_target_cpu (r : AnalysisResult) (nm : List Char) (v : PyLit) :
    (apply_assign_target r nm v).cpu = if nm ∈ cpuAliases then some v else r.cpu := by
  unfold apply_assign_target
  split_ifs <;>
    first
      | rfl
      | exact absurd ‹nm ∈ archAliases› (cpuAlias_prev ‹nm ∈ cpuAliases›)

theorem apply_assign_target_cross (r : AnalysisResult) (nm : List Char) (v : PyLit) :
    (apply_assign_target r nm v).cross_tool =
      if nm ∈ crossToolAliases then some v else r.cross_tool := by
  unfold apply_assign_target
  split_ifs <;>
    first
      | rfl
      | exact absurd ‹nm ∈ archAliases› (crossAlias_prev ‹nm ∈ crossToolAliases›).1
      | exact absurd ‹nm ∈ cpuAliases› (crossAlias_prev ‹nm ∈ crossToolAliases›).2

theorem apply_assign_target_platform (r : AnalysisResult) (nm : List Char) (v : PyLit) :
    (apply_assign_target r nm v).platform =
      if nm ∈ platformAliases then some v else r.platform := by
  unfold apply_assign_target
  split_ifs <;>
    first
      | rfl
      | exact absurd ‹nm ∈ archAliases› (platformAlias_prev ‹nm ∈ platformAliases›).1
      | exact absurd ‹nm ∈ cpuAliases› (platformAlias_prev ‹nm ∈ platformAliases›).2.1
      | exact absurd ‹nm ∈ crossToolAliases› (platformAlias_prev ‹nm ∈ platformAliases›).2.2

theorem apply_assign_target_exec (r : AnalysisResult) (nm : List Char) (v : PyLit) :
    (apply_assign_target r nm v).exec_path =
      if nm ∈ execPathAliases then some v else r.exec_path := by
  unfold apply_assign_target
  split_ifs <;>
    first
      | rfl
      | exact absurd ‹nm ∈ archAliases› (execAlias_prev ‹nm ∈ execPathAliases›).1
      | exact absurd ‹nm ∈ cpuAliases› (execAlias_prev ‹nm ∈ execPathAliases›).2.1
      | exact absurd ‹nm ∈ crossToolAliases› (execAlias_prev ‹nm ∈ execPathAliases›).2.2.1
      | exact absurd ‹nm ∈ platformAliases› (execAlias_prev ‹nm ∈ execPathAliases›).2.2.2

theorem apply_assign_target_build (r : AnalysisResult) (nm : List Char) (v : PyLit) :
    (apply_assign_target r nm v).build = if nm ∈ buildAliases then v else r.build := by
  unfold apply_assign_target
  split_ifs <;>
    first
      | rfl
      | exact absurd ‹nm ∈ archAliases› (buildAlias_prev ‹nm ∈ buildAliases›).1
      | exact absurd ‹nm ∈ cpuAliases› (buildAlias_prev ‹nm ∈ buildAliases›).2.1
      | exact absurd ‹nm ∈ crossToolAliases› (buildAlias_prev ‹nm ∈ buildAliases›).2.2.1
      | exact absurd ‹nm ∈ platformAliases› (buildAlias_prev ‹nm ∈ buildAliases›).2.2.2.1
      | exact absurd ‹nm ∈ execPathAliases› (buildAlias_prev ‹nm ∈ buildAliases›).2.2.2.2

theorem assignLit_inl_eq {al : List (List Char)} {ts : List PyTarget} {v w : PyLit}
    (h : assignLit al ⟨ts, .inl v⟩ = some w) : w = v := by
  unfold assignLit at h
  split_ifs at h
  simp_all

/-- Field view of the inner target fold: the node's contribution (if
any) overwrites the field, all with the node's single value. -/
theorem targets_foldl_proj {α : Type} (P : AnalysisResult → α) (inj : PyLit → α)
    (al : List (List Char))
    (H : ∀ r nm v, P (apply_assign_target r nm v) = if nm ∈ al then inj v else P r)
    (Hvar : ∀ r nm txt,
      P { r with original_variables := upsert r.original_variables nm (.inr txt) } = P r)
    (value : VarValue) (ts : List PyTarget) (r : AnalysisResult) :
    P (ts.foldl (process_target value) r) =
      (assignLit al ⟨ts, value⟩).elim (P r) inj := by
  induction ts generalizing r with
  | nil => cases value <;> simp [assignLit]
  | cons t ts ih =>
      rw [List.foldl_cons, ih]
      cases t with
      | other =>
          cases value with
          | inl v => simp [process_target, assignLit]
          | inr txt => simp [process_target, assignLit]
      | name nm =>
          cases value with
          | inr txt => simp [process_target, assignLit, Hvar]
          | inl v =>
              by_cases hm : nm ∈ al
              · have hhead : assignLit al ⟨PyTarget.name nm :: ts, .inl v⟩ = some v := by
                  simp [assignLit, hm]
                rw [hhead]
                cases hs : assignLit al ⟨ts, .inl v⟩ with
                | none => simp [hs, process_target, H, hm]
                | some w =>
                    have hw := assignLit_inl_eq hs
                    subst hw
                    simp [hs]
              · have hhead : assignLit al ⟨PyTarget.name nm :: ts, .inl v⟩ =
                    assignLit al ⟨ts, .inl v⟩ := by
                  simp [assignLit, hm]
                rw [hhead]
                cases hs : assignLit al ⟨ts, .inl v⟩ with
                | none => simp [hs, process_target, H, hm]
                | some w => simp [hs]

/-- Field view of the whole AST walk: the last literal assignment to an
alias wins; an untouched field keeps its initial value. -/
theorem extract_from_ast_proj {α : Type} (P : AnalysisResult → α) (inj : PyLit → α)
    (al : List (List Char))
    (H : ∀ r nm v, P (apply_assign_target r nm v) = if nm ∈ al then inj v else P r)
    (Hvar : ∀ r nm txt,
      P { r with original_variables := upsert r.original_variables nm (.inr txt) } = P r)
    (tree : List AstAssign) (r : AnalysisResult) :
    P (extract_from_ast tree r) = (lastLitFor al tree).elim (P r) inj := by
  induction tree generalizing r with
  | nil => simp [extract_from_ast, lastLitFor]
  | cons a tree ih =>
      have step : extract_from_ast (a :: tree) r
          = extract_from_ast tree (a.targets.foldl (process_target a.value) r) := by
        simp [extract_from_ast]
      rw [step, ih, targets_foldl_proj P inj al H Hvar]
      cases a with
      | mk ats av =>
          cases h : assignLit al ⟨ats, av⟩ with
          | none => simp [lastLitFor, List.filterMap_cons, h]
          | some w =>
              have hcons : ∀ l : List PyLit, (w :: l).getLast? = l.getLast?.or (some w) := by
                intro l
                rw [← List.singleton_append, List.getLast?_append]
                simp
              cases hLast : (List.filterMap (assignLit al) tree).getLast? with
              | none => simp [lastLitFor, List.filterMap_cons, h, hcons, hLast]
              | some u => simp [lastLitFor, List.filterMap_cons, h, hcons, hLast]

/-- C1 (amended): over a successful structural parse, each canonical
field equals the value of the *last* literal assignment whose `Name`
target is an *exact* member of the field's alias list
(`{ARCH, arch}`, `{CPU, cpu}`, `{CROSS_TOOL}` — the lowercase
cross-tool alias is absent from line 123 —, `{PLATFORM, platform}`,
`{EXEC_PATH, exec_path}`, `{BUILD, build}`); a field with no such
assignment keeps its initial value (`None`, and `'debug'` for the build
type).  There is no case-insensitive second pass. -/
theorem ast_alias_last_assignment_wins (tree : List AstAssign) :
    (extract_from_ast tree {}).arch = (lastLitFor archAliases tree).elim none some ∧
    (extract_from_ast tree {}).cpu = (lastLitFor cpuAliases tree).elim none some ∧
    (extract_from_ast tree {}).cross_tool = (lastLitFor crossToolAliases tree).elim none some ∧
    (extract_from_ast tree {}).platform = (lastLitFor platformAliases tree).elim none some ∧
    (extract_from_ast tree {}).exec_path = (lastLitFor execPathAliases tree).elim none some ∧
    (extract_from_ast tree {}).build =
      (lastLitFor buildAliases tree).elim (.pyStr (("debug").toList)) id := by
  refine ⟨?_, ?_, ?_, ?_, ?_, ?_⟩
  · exact extract_from_ast_proj (fun r => r.arch) some archAliases
      apply_assign_target_arch (fun _ _ _ => rfl) tree {}
  · exact extract_from_ast_proj (fun r => r.cpu) some cpuAliases
      apply_assign_target_cpu (fun _ _ _ => rfl) tree {}
  · exact extract_from_ast_proj (fun r => r.cross_tool) some crossToolAliases
      apply_assign_target_cross (fun _ _ _ => rfl) tree {}
  · exact extract_from_ast_proj (fun r => r.platform) some platformAliases
      apply_assign_target_platform (fun _ _ _ => rfl) tree {}
  · exact extract_from_ast_proj (fun r => r.exec_path) some execPathAliases
      apply_assign_target_exec (fun _ _ _ => rfl) tree {}
  · exact extract_from_ast_proj (fun r => r.build) id buildAliases
      apply_assign_target_build (fun _ _ _ => rfl) tree {}

/-- C7: the flag classifier is monotonic: a value with no banned
keyword substring classifies as supported, and appending any banned
keyword to such a value makes it classify as unsupported. -/
theorem flag_classifier_monotonic (v : List Char)
    (hclean : ∀ k ∈ unsupported_gcc_keywords, ¬ k <:+: v) :
    isUnsupported v = none ∧
    ∀ kw ∈ unsupported_gcc_keywords, (isUnsupported (v ++ kw)).isSome := by
  constructor
  · exact List.find?_eq_none.mpr (fun k hk => by simpa using hclean k hk)
  · intro kw hkw
    exact List.find?_isSome.mpr ⟨kw, hkw, by simpa using (List.suffix_append v kw).isInfix⟩

/-- Witness for C7 at the clean value `-O2` and the keyword
`--strict`. -/
theorem flag_classifier_monotonic_witness :
    isUnsupported (("-O2").toList) = none ∧
    (isUnsupported (("-O2").toList ++ ("--strict").toList)).isSome := by
  have h := flag_classifier_monotonic (("-O2").toList) (by decide)
  exact ⟨h.1, h.2 (("--strict").toList) (by decide)⟩

/-- C4: `analyze` is a total function of the source text: the `ast`
failure branch (`astTree = none`) still produces a record, with
`parsed_successfully = false`, and a successful parse produces one with
`parsed_successfully = true`; no extraction step can escape the
analyzer. -/
theorem analyze_total (content : List Char) (fsExists : List Char → Bool) :
    (analyze content none fsExists).parsed_successfully = false ∧
    (∀ tree, (analyze content (some tree) fsExists).parsed_successfully = true) ∧
    (∀ astTree, ∃ r : AnalysisResult, analyze content astTree fsExists = r) := by
  refine ⟨?_, fun tree => ?_, fun astTree => ⟨_, rfl⟩⟩ <;> simp [analyze]

/-- C10: the generated text always pins `CROSS_TOOL = 'gcc'`, and the
generator's output does not depend on the recovered cross-tool value at
all. -/
theorem generated_cross_tool_is_gcc (r : AnalysisResult) (v : Option PyLit)
    (original_file ts : List Char) :
    ("CROSS_TOOL = 'gcc'").toList ∈ generated_lines r original_file ts ∧
    generate { r with cross_tool := v } original_file ts = generate r original_file ts := by
  constructor
  · have hb : ("CROSS_TOOL = 'gcc'").toList ∈ add_basic_config r.arch r.cpu r.build := by
      unfold add_basic_config
      exact List.mem_cons_of_mem _ (List.mem_cons_of_mem _ (List.mem_cons_of_mem _
        (List.mem_cons_of_mem _ (List.mem_cons_of_mem _ (List.mem_cons_self _ _)))))
    unfold generated_lines
    exact List.mem_append_left _ (List.mem_append_left _ (List.mem_append_left _
      (List.mem_append_right _ hb)))
  · cases r
    rfl

/-- C3 (divergence witness): on an empty source — where neither strategy
can find an architecture — the generator renders `ARCH = 'None'`
(and `CPU = 'None'`), not the documented default `'arm'`: the `'arm'`
fallback of `analysis.get('arch', 'arm')` is dead because `analyze`
pre-populates the key with `None`, which the f-string prints as `None`.
The build-type half of the claim does hold: `BUILD = 'debug'` is
rendered, because the `'debug'` default lives in the analyzer's result
initialisation. -/
theorem empty_source_renders_none_arch :
    ("ARCH = 'None'").toList ∈ generated_lines (analyze [] (some []) (fun _ => false)) [] [] ∧
    ("CPU = 'None'").toList ∈ generated_lines (analyze [] (some []) (fun _ => false)) [] [] ∧
    ("BUILD = 'debug'").toList ∈ generated_lines (analyze [] (some []) (fun _ => false)) [] [] := by
  refine ⟨?_, ?_, ?_⟩ <;> decide

/-- C8: the worked scenario.  The analysis of `c8_content` records
exactly one unsupported entry, keyword `--no_inline`; the generated
output selects the cortex-m4 FPU flags with the hard float ABI; the
generated compile flags carry `-DUSE_HAL` and `-Iinc`; the build type
defaulted to `debug`, so the generated text pins `BUILD = 'debug'` and
appends `' -O0 -gdwarf-2 -g'` to `CFLAGS` in the debug branch it
selects. -/
theorem scenario_cortex_m4 :
    c8_analysis.unsupported_configs =
      [⟨("CFLAGS").toList, ("--no_inline -Dgcc -DUSE_HAL -Iinc").toList,
        ("--no_inline").toList⟩] ∧
    ("    DEVICE = ' -mcpu=cortex-m4 -mthumb -mfpu=fpv4-sp-d16 -mfloat-abi=hard -ffunction-sections -fdata-sections'").toList
      ∈ generated_lines c8_analysis [] [] ∧
    ("    CFLAGS = DEVICE + ' -Dgcc -DUSE_HAL -Iinc'").toList
      ∈ generated_lines c8_analysis [] [] ∧
    ("-DUSE_HAL").toList
      <:+: generate_safe_cflags_fixed c8_analysis.defines c8_analysis.includes
             c8_analysis.unsupported_configs ∧
    ("-Iinc").toList
      <:+: generate_safe_cflags_fixed c8_analysis.defines c8_analysis.includes
             c8_analysis.unsupported_configs ∧
    c8_analysis.build = .pyStr (("debug").toList) ∧
    ("BUILD = 'debug'").toList ∈ generated_lines c8_analysis [] [] ∧
    ("        CFLAGS += ' -O0 -gdwarf-2 -g'").toList ∈ generated_lines c8_analysis [] [] := by
  refine ⟨?_, ?_, ?_, ?_, ?_, ?_, ?_, ?_⟩ <;> decide

/-- C6: whenever the preserved handler block is non-empty, its text
appears byte-for-byte inside the generated output (it is the final
joined line). -/
theorem preserved_handler_roundtrip (r : AnalysisResult) (original_file ts : List Char)
    (h : r.dist_handle_code ≠ []) :
    r.dist_handle_code <:+: generate r original_file ts := by
  have h2 : generated_lines r original_file ts =
      (add_header original_file ts ++ [("import os").toList, []]
        ++ add_basic_config r.arch r.cpu r.build ++ add_toolchain_config
        ++ add_gcc_config r.cpu r.linker_script r.defines r.includes r.unsupported_configs
        ++ [[], sepLine, ("# 发布处理函数 (从原始文件保留)").toList, sepLine])
      ++ [r.dist_handle_code] := by
    unfold generated_lines
    rw [if_pos h]
    simp [List.append_assoc]
  unfold generate
  rw [h2]
  exact (joinLines_suffix_last _ _).isInfix

/-- Witness for C6 at a concrete record with a non-empty handler
block. -/
theorem preserved_handler_roundtrip_witness :
    c6_record.dist_handle_code ≠ [] ∧
    c6_record.dist_handle_code <:+: generate c6_record [] [] :=
  ⟨by decide, preserved_handler_roundtrip c6_record [] [] (by decide)⟩

/-- C1 fails on the code: re-assigning `ARCH` keeps the *last* literal
value (the AST walk overwrites the field on every hit, so the first
assignment does not win), and the claimed case-insensitive second pass
does not exist (the mixed-case name `Arch` — accepted by `ast.parse` in
the source text `Arch = 'arm'` — fills nothing). -/
theorem ast_first_wins_counterexample :
    (extract_from_ast
       [⟨[.name (("ARCH").toList)], .inl (.pyStr (("armv7-a").toList))⟩,
        ⟨[.name (("ARCH").toList)], .inl (.pyStr (("armv8-a").toList))⟩] {}).arch
      = some (.pyStr (("armv8-a").toList)) ∧
    (extract_from_ast
       [⟨[.name (("Arch").toList)], .inl (.pyStr (("arm").toList))⟩] {}).arch = none := by
  constructor <;> decide

/-- C2 fails on the code: with two `CFLAGS` assignments each holding an
unsupported keyword (source text
`CFLAGS = ' --no_inline '` then `CFLAGS = ' --strict '`), the analyzer
records *two* entries for the CFLAGS kind — the "at most one entry per
flag kind" invariant only holds per regex match, not per kind. -/
theorem unsupported_per_kind_counterexample :
    ((analyze_compiler_flags_fixed
        (("CFLAGS = ' --no_inline '\nCFLAGS = ' --strict '\n").toList)).filter
       (fun e => decide (e.flag = ("CFLAGS").toList))).length = 2 := by
  decide

/-- Every entry contributed by one flag kind carries that kind's
name. -/
theorem flag_entries_flag_eq {content name : List Char} {e : UnsupportedConfig}
    (he : e ∈ flag_entries content name) : e.flag = name := by
  rw [flag_entries, List.mem_filterMap] at he
  obtain ⟨m, _, hGm⟩ := he
  by_cases hv : cleanFlagValue m = []
  · simp [hv] at hGm
  · cases hk : isUnsupported (cleanFlagValue m) with
    | none => simp [hv, hk] at hGm
    | some kw =>
        simp [hv, hk] at hGm
        rw [← hGm]

/-- C2 (amended): every recorded entry's keyword is the *first keyword
in the fixed table order* that is a substring of the entry's cleaned
value (every earlier table keyword is not a substring of it), and the
number of entries per flag kind is bounded by the number of regex
matches of that kind — at most one entry per *match*, not per kind. -/
theorem unsupported_entry_first_keyword (content : List Char) :
    (∀ e ∈ analyze_compiler_flags_fixed content,
       e.unsupported_keyword <:+: e.value ∧
       ∃ pre post, unsupported_gcc_keywords = pre ++ e.unsupported_keyword :: post ∧
         ∀ k ∈ pre, ¬ k <:+: e.value) ∧
    (∀ name : List Char,
       ((analyze_compiler_flags_fixed content).filter
          (fun e => decide (e.flag = name))).length ≤ (scanFlag name content).length) := by
  constructor
  · intro e he
    have hmem : ∃ name ∈ flagKindNames, e ∈ flag_entries content name := by
      unfold analyze_compiler_flags_fixed at he
      rw [List.mem_flatten] at he
      obtain ⟨l, hl, hel⟩ := he
      rw [List.mem_map] at hl
      obtain ⟨name, hn, rfl⟩ := hl
      exact ⟨name, hn, hel⟩
    obtain ⟨name, _, hel⟩ := hmem
    rw [flag_entries, List.mem_filterMap] at hel
    obtain ⟨m, _, hGm⟩ := hel
    by_cases hv : cleanFlagValue m = []
    · simp [hv] at hGm
    · cases hk : isUnsupported (cleanFlagValue m) with
      | none => simp [hv, hk] at hGm
      | some kw =>
          simp [hv, hk] at hGm
          rw [isUnsupported] at hk
          obtain ⟨hp, pre, post, htab, hpre⟩ := List.find?_eq_some.mp hk
          rw [← hGm]
          refine ⟨of_decide_eq_true hp, pre, post, htab, fun k hk' => ?_⟩
          have := hpre k hk'
          simpa using this
  · intro name
    have hsplit : analyze_compiler_flags_fixed content =
        flag_entries content (("CFLAGS").toList)
          ++ flag_entries content (("AFLAGS").toList)
          ++ flag_entries content (("LFLAGS").toList) := by
      simp [analyze_compiler_flags_fixed, flagKindNames]
    have hnil : ∀ k : List Char, k ≠ name →
        (flag_entries content k).filter (fun e => decide (e.flag = name)) = [] := by
      intro k hkn
      rw [List.filter_eq_nil_iff]
      intro e he
      simp only [decide_eq_true_eq]
      rw [flag_entries_flag_eq he]
      exact hkn
    have hbound : ∀ k : List Char,
        ((flag_entries content k).filter (fun e => decide (e.flag = name))).length
          ≤ (flag_entries content k).length :=
      fun k => List.length_filter_le _ _
    have hlen : ∀ k : List Char,
        (flag_entries content k).length ≤ (scanFlag k content).length :=
      fun k => List.length_filterMap_le _ _
    rw [hsplit, List.filter_append, List.filter_append, List.length_append,
        List.length_append]
    by_cases h1 : ("CFLAGS").toList = name
    · subst h1
      rw [hnil (("AFLAGS").toList) (by decide), hnil (("LFLAGS").toList) (by decide)]
      simpa using le_trans (hbound _) (hlen _)
    · by_cases h2 : ("AFLAGS").toList = name
      · subst h2
        rw [hnil (("CFLAGS").toList) (by decide), hnil (("LFLAGS").toList) (by decide)]
        simpa using le_trans (hbound _) (hlen _)
      · by_cases h3 : ("LFLAGS").toList = name
        · subst h3
          rw [hnil (("CFLAGS").toList) (by decide), hnil (("AFLAGS").toList) (by decide)]
          simpa using le_trans (hbound _) (hlen _)
        · rw [hnil _ h1, hnil _ h2, hnil _ h3]
          simp

/-- Witness for C2 (amended) at a source text with one CFLAGS
assignment whose value holds the keyword `--strict`. -/
theorem unsupported_entry_first_keyword_witness :
    (⟨("CFLAGS").toList, ("--strict").toList, ("--strict").toList⟩ : UnsupportedConfig)
      ∈ analyze_compiler_flags_fixed (("CFLAGS = '--strict'\n").toList) ∧
    ("--strict").toList <:+: ("--strict").toList := by
  have h := (unsupported_entry_first_keyword (("CFLAGS = '--strict'\n").toList)).1
      ⟨("CFLAGS").toList, ("--strict").toList, ("--strict").toList⟩ (by decide)
  exact ⟨by decide, h.1⟩

/-! ### Completeness of the define scan (for C5) -/

/-- Splitting `takeWhile`/`dropWhile` at a maximal word run. -/
theorem takeWhile_word_split {id b : List Char}
    (hw : ∀ c ∈ id, pyIsWord c) (hb : ∀ c ∈ b.take 1, ¬ pyIsWord c) :
    (id ++ b).takeWhile pyIsWord = id ∧ (id ++ b).dropWhile pyIsWord = b := by
  have hbt : b.takeWhile pyIsWord = [] := by
    cases b with
    | nil => rfl
    | cons c bs =>
        have := hb c (by simp)
        simp [List.takeWhile_cons, this]
  have hbd : b.dropWhile pyIsWord = b := by
    cases b with
    | nil => rfl
    | cons c bs =>
        have := hb c (by simp)
        simp [List.dropWhile_cons, this]
  constructor
  · rw [List.takeWhile_append_of_pos (by simpa using hw), hbt, List.append_nil]
  · rw [List.dropWhile_append_of_pos (by simpa using hw), hbd]

/-- The scan finds every `-D<identifier>` occurrence: matches cannot
overlap (`-` is not a word character, so an occurrence can neither start
inside a captured identifier run nor inside the consumed `-D`). -/
theorem defineScanAux_complete (fuel : Nat) (content : List Char) :
    ∀ a b id, content.length < fuel →
      content = a ++ '-' :: 'D' :: (id ++ b) →
      id ≠ [] → (∀ c ∈ id, pyIsWord c) → (∀ c ∈ b.take 1, ¬ pyIsWord c) →
      id ∈ defineScanAux fuel content := by
  induction fuel, content using defineScanAux.induct with
  | case1 content =>
      intro a b id h
      exact absurd h (Nat.not_lt_zero _)
  | case2 n =>
      intro a b id _ heq
      simp at heq
  | case3 f r htk ih =>
      intro a b id hlen heq hne hw hb
      rw [defineScanAux.eq_3, if_pos htk]
      cases a with
      | nil =>
          have hr : r = id ++ b := by simpa using heq
          rw [hr, (takeWhile_word_split hw hb).1] at htk
          exact absurd htk hne
      | cons x a' =>
          have hx : 'D' :: r = a' ++ '-' :: 'D' :: (id ++ b) :=
            (by simpa using heq : '-' = x ∧ _).2
          apply ih a' b id ?_ hx hne hw hb
          simp only [List.length_cons] at hlen ⊢
          omega
  | case4 f r htk ih =>
      intro a b id hlen heq hne hw hb
      rw [defineScanAux.eq_3, if_neg htk]
      cases a with
      | nil =>
          have hr : r = id ++ b := by simpa using heq
          subst hr
          rw [(takeWhile_word_split hw hb).1]
          exact List.mem_cons_self _ _
      | cons x a' =>
          have hx : 'D' :: r = a' ++ '-' :: 'D' :: (id ++ b) :=
            (by simpa using heq : '-' = x ∧ _).2
          cases a' with
          | nil => simp at hx
          | cons y a2 =>
              have hr : r = a2 ++ '-' :: 'D' :: (id ++ b) :=
                (by simpa using hx : 'D' = y ∧ _).2
              have hpre1 : r.takeWhile pyIsWord <+: r := List.takeWhile_prefix _
              have hpre2 : a2 <+: r := ⟨'-' :: 'D' :: (id ++ b), hr.symm⟩
              have hkey : ∃ a3, a2 = r.takeWhile pyIsWord ++ a3 := by
                rcases List.prefix_or_prefix_of_prefix hpre1 hpre2 with hq | hq
                · obtain ⟨a3, ha3⟩ := hq
                  exact ⟨a3, ha3.symm⟩
                · obtain ⟨t', ht'⟩ := hq
                  cases t' with
                  | nil => exact ⟨[], by simp [← ht']⟩
                  | cons c t2 =>
                      exfalso
                      have hcmem : c ∈ r.takeWhile pyIsWord := by
                        rw [← ht']
                        exact List.mem_append_right _ (List.mem_cons_self _ _)
                      have hcword : pyIsWord c := List.mem_takeWhile_imp hcmem
                      obtain ⟨s, hs⟩ := hpre1
                      rw [← ht'] at hs
                      have hmid : '-' :: 'D' :: (id ++ b) = c :: (t2 ++ s) := by
                        apply @List.append_cancel_left Char a2
                        rw [← hr, ← hs]
                        simp
                      have hc : c = '-' := ((List.cons.injEq _ _ _ _).mp hmid).1.symm
                      rw [hc] at hcword
                      simp [pyIsWord] at hcword
              obtain ⟨a3, ha3⟩ := hkey
              have hdrop : r.dropWhile pyIsWord = a3 ++ '-' :: 'D' :: (id ++ b) := by
                have h1 : r.takeWhile pyIsWord ++ r.dropWhile pyIsWord
                    = r.takeWhile pyIsWord ++ (a3 ++ '-' :: 'D' :: (id ++ b)) := by
                  conv_lhs => rw [List.takeWhile_append_dropWhile, hr, ha3]
                  rw [List.append_assoc]
                exact List.append_cancel_left h1
              apply List.mem_cons_of_mem
              apply ih a3 b id ?_ hdrop hne hw hb
              have hdl : (r.dropWhile pyIsWord).length ≤ r.length :=
                List.Sublist.length_le (List.dropWhile_sublist _)
              simp only [List.length_cons] at hlen
              omega
  | case5 f x rest hmis ih =>
      intro a b id hlen heq hne hw hb
      cases a with
      | nil =>
          have h1 : x = '-' ∧ rest = 'D' :: (id ++ b) := by simpa using heq
          exact (hmis (id ++ b) h1.1 h1.2).elim
      | cons x' a' =>
          have h1 : rest = a' ++ '-' :: 'D' :: (id ++ b) :=
            (by simpa using heq : x = x' ∧ _).2
          rw [defineScanAux.eq_4 f x rest hmis]
          apply ih a' b id ?_ h1 hne hw hb
          simp only [List.length_cons] at hlen ⊢
          omega

/-- A fold whose step either keeps the accumulator or inserts into the
set keeps it duplicate-free. -/
theorem foldl_step_nodup (step : List (List Char) → List Char → List (List Char))
    (hstep : ∀ s m, step s m = s ∨ step s m = addToSet s m)
    (l : List (List Char)) : ∀ s : List (List Char), s.Nodup → (l.foldl step s).Nodup := by
  induction l with
  | nil => exact fun s hs => hs
  | cons m l ih =>
      intro s hs
      apply ih
      rcases hstep s m with h | h <;> rw [h]
      · exact hs
      · unfold addToSet
        split_ifs with hmem
        · exact hs
        · simp [List.nodup_append, hs, hmem]

/-- Membership in the accumulator survives such a fold. -/
theorem foldl_step_mem_of_mem (step : List (List Char) → List Char → List (List Char))
    (hstep : ∀ s m, step s m = s ∨ step s m = addToSet s m)
    (x : List Char) (l : List (List Char)) :
    ∀ s, x ∈ s → x ∈ l.foldl step s := by
  induction l with
  | nil => exact fun s h => h
  | cons m l ih =>
      intro s h
      apply ih
      rcases hstep s m with h2 | h2 <;> rw [h2]
      · exact h
      · unfold addToSet
        split_ifs with hmem
        · exact h
        · exact List.mem_append_left _ h

/-- An element of the scanned list on which the step inserts ends up in
the fold result. -/
theorem foldl_step_mem (step : List (List Char) → List Char → List (List Char))
    (hstep : ∀ s m, step s m = s ∨ step s m = addToSet s m)
    (x : List Char) (hx : ∀ s, x ∈ step s x)
    (l : List (List Char)) : ∀ s, x ∈ l → x ∈ l.foldl step s := by
  induction l with
  | nil => intro s h; cases h
  | cons m l ih =>
      intro s hl
      rcases List.mem_cons.mp hl with rfl | hml
      · exact foldl_step_mem_of_mem step hstep x l _ (hx s)
      · exact ih _ hml

/-- C5 (amended): `macroDefines` is duplicate-free and contains every
identifier occurring as a `-D<identifier>` token anywhere in the text,
except the identifier `gcc` and the identifiers whose `-D`-prefixed
form is in the unsupported-keyword table (`__MICROLIB`, `ewarm`), which
line 265 filters out. -/
theorem define_collection_complete (content : List Char) :
    (extract_defines_and_includes_fixed content).1.Nodup ∧
    ∀ id, occursDefineToken content id → id ≠ ("gcc").toList →
      ('-' :: 'D' :: id) ∉ unsupported_gcc_keywords →
      id ∈ (extract_defines_and_includes_fixed content).1 := by
  have hstep : ∀ (s : List (List Char)) (m : List Char),
      (if m ≠ ("gcc").toList ∧ ('-' :: 'D' :: m) ∉ unsupported_gcc_keywords
       then addToSet s m else s) = s ∨
      (if m ≠ ("gcc").toList ∧ ('-' :: 'D' :: m) ∉ unsupported_gcc_keywords
       then addToSet s m else s) = addToSet s m := by
    intro s m
    split_ifs
    · exact Or.inr rfl
    · exact Or.inl rfl
  constructor
  · exact foldl_step_nodup _ hstep _ _ List.nodup_nil
  · intro id hocc hgcc hkw
    obtain ⟨hne, hw, a, b, heq, hb⟩ := hocc
    have hscan : id ∈ defineScan content := by
      apply defineScanAux_complete (content.length + 1) content a b id
        (Nat.lt_succ_self _) heq hne hw hb
    exact foldl_step_mem _ hstep id
      (fun s => by
        rw [if_pos ⟨hgcc, hkw⟩]
        unfold addToSet
        split_ifs with hmem
        · exact hmem
        · exact List.mem_append_right _ (List.mem_cons_self _ _))
      _ _ hscan

/-- C5 fails as stated: in the source text `x = '-Dgcc'` the identifier
`gcc` occurs as a `-D` token, but `macroDefines` does not contain it
(the collection at line 265 skips `gcc`). -/
theorem define_collection_counterexample :
    occursDefineToken (("x = '-Dgcc'").toList) (("gcc").toList) ∧
    ("gcc").toList ∉ (extract_defines_and_includes_fixed (("x = '-Dgcc'").toList)).1 := by
  constructor
  · refine ⟨by decide, by decide, ("x = '").toList, ("'").toList, by decide, by decide⟩
  · decide

/-- Witness for C5 (amended) at the source text `CFLAGS = '-DUSE_HAL'`. -/
theorem define_collection_complete_witness :
    ("USE_HAL").toList
      ∈ (extract_defines_and_includes_fixed (("CFLAGS = '-DUSE_HAL'").toList)).1 :=
  (define_collection_complete (("CFLAGS = '-DUSE_HAL'").toList)).2 (("USE_HAL").toList)
    ⟨by decide, by decide, ("CFLAGS = '").toList, ("'").toList, by decide, by decide⟩
    (by decide) (by decide)

/-! ### Path disjointness and the backup-before-overwrite run (C9) -/

theorem backup_ne_input (bsp_dir name ts_file : List Char) (hname : '/' ∉ name) :
    backupPathOf bsp_dir name ts_file ≠ inputPathOf bsp_dir name := by
  intro h
  unfold backupPathOf inputPathOf pathJoin at h
  simp only [List.append_assoc, List.cons_append] at h
  have h2 := List.append_cancel_left h
  rw [List.cons.injEq] at h2
  apply hname
  rw [← h2.2]
  exact List.mem_append_right _ (List.mem_cons_self _ _)

theorem input_ne_report (bsp_dir name ts_file : List Char) (hname : '/' ∉ name) :
    inputPathOf bsp_dir name ≠ reportPathOf bsp_dir name ts_file := by
  intro h
  unfold reportPathOf inputPathOf pathJoin at h
  simp only [List.append_assoc, List.cons_append] at h
  have h2 := List.append_cancel_left h
  rw [List.cons.injEq] at h2
  apply hname
  rw [h2.2]
  exact List.mem_append_right _ (List.mem_cons_self _ _)

theorem backup_ne_report (bsp_dir name ts_file : List Char) :
    backupPathOf bsp_dir name ts_file ≠ reportPathOf bsp_dir name ts_file := by
  intro h
  unfold backupPathOf reportPathOf pathJoin at h
  simp only [List.append_assoc, List.cons_append] at h
  have h2 := List.append_cancel_left h
  rw [List.cons.injEq] at h2
  have h3 := List.append_cancel_left h2.2
  rw [List.cons.injEq] at h3
  have h4 := List.append_cancel_left h3.2
  rw [List.cons.injEq] at h4
  have h5 := List.append_cancel_left h4.2
  exact absurd h5 (by decide)

/-- C9: in a run of `main` the backup copy is taken before the original
path is overwritten (the operation list is, in order, the copy to the
backup path, the overwrite of the input path with the generated text,
and the report write), and the timestamped backup path collides with
neither write; hence after the run the backup holds exactly the pre-run
content of the original file, while the original path holds the
generated text. -/
theorem backup_before_overwrite
    (fs0 : List Char → Option (List Char))
    (bsp_dir name ts_file ts_header content : List Char)
    (astTree : Option (List AstAssign)) (fsExists : List Char → Bool)
    (hname : '/' ∉ name)
    (hfs : fs0 (inputPathOf bsp_dir name) = some content) :
    run_main fs0 bsp_dir name ts_file ts_header content astTree fsExists
        (backupPathOf bsp_dir name ts_file) = some content ∧
    run_main fs0 bsp_dir name ts_file ts_header content astTree fsExists
        (inputPathOf bsp_dir name) =
      some (generate (analyze content astTree fsExists)
              (inputPathOf bsp_dir name) ts_header) := by
  have hbi := backup_ne_input bsp_dir name ts_file hname
  have hbr := backup_ne_report bsp_dir name ts_file
  have hir := input_ne_report bsp_dir name ts_file hname
  unfold run_main main_ops
  simp only [List.foldl_cons, List.foldl_nil, fsApply]
  constructor
  · rw [if_neg hbr, if_neg hbi]
    simpa using hfs
  · rw [if_neg hir]
    simp

/-- Witness for C9 at a concrete run. -/
theorem backup_before_overwrite_witness :
    (fun p => if p = inputPathOf (("/bsp").toList) (("rtconfig.py").toList)
              then some (("ARCH='arm'\n").toList) else none)
        (inputPathOf (("/bsp").toList) (("rtconfig.py").toList))
      = some (("ARCH='arm'\n").toList) ∧
    run_main
      (fun p => if p = inputPathOf (("/bsp").toList) (("rtconfig.py").toList)
                then some (("ARCH='arm'\n").toList) else none)
      (("/bsp").toList) (("rtconfig.py").toList) (("20250101_000000").toList)
      (("2025-01-01 00:00:00").toList) (("ARCH='arm'\n").toList) none (fun _ => false)
      (backupPathOf (("/bsp").toList) (("rtconfig.py").toList) (("20250101_000000").toList))
      = some (("ARCH='arm'\n").toList) := by
  refine ⟨if_pos rfl, ?_⟩
  exact (backup_before_overwrite _ _ _ _ _ _ _ _ (by decide) (if_pos rfl)).1

end RTConfig
